import Mathlib

/-!
Shallow embedding of the SUIMON Telegram card bot (`src/bot.py`).

The compositor `add_foil_stamp`, the OCR auditors `check_hp_visibility` and
`check_flavor_text`, the conversation-gate handlers (`generate`,
`handle_image`, `button_callback`) and the photo-variant selection of
`handle_image` are translated below.  Images are modelled as pixel functions
with explicit dimensions; Python floats coming from the environment
(`FOIL_SCALE`, `FOIL_X_OFFSET`, `FOIL_Y_OFFSET`) are modelled as rationals and
Python `int()` as truncation toward zero; OCR text is modelled as `List Char`
and a failing recognizer as `none`.  Library calls of the image library are
modelled at their documented interface: `resize` to a non-positive size and
`alpha_composite` to a negative destination raise `ValueError`, a destination
past the right/bottom edge is silently clipped, and resampled pixel values are
an unspecified deterministic function of the source (the claims never inspect
them).
-/

namespace Suimon

/-- One RGBA pixel (each channel 0..255). -/
structure Pixel where
  r : Nat
  g : Nat
  b : Nat
  a : Nat
  deriving DecidableEq

/-- An in-memory RGBA image: dimensions plus a pixel function. -/
structure Img where
  width : Nat
  height : Nat
  pix : Nat → Nat → Pixel

/-- Python `int()` applied to an exact rational: truncation toward zero. -/
def pyInt (q : ℚ) : ℤ :=
  if 0 ≤ q then ⌊q⌋ else ⌈q⌉

/-- `logo_width = int(card.width * foil_scale)` (bot.py line 98). -/
def logoWidthI (cardW : Nat) (scale : ℚ) : ℤ :=
  pyInt ((cardW : ℚ) * scale)

/-- `ratio = logo_width / logo.width; logo_height = int(logo.height * ratio)`
(bot.py lines 99-100). -/
def logoHeightI (logoW logoH : Nat) (lw : ℤ) : ℤ :=
  pyInt ((logoH : ℚ) * ((lw : ℚ) / (logoW : ℚ)))

/-- `pos_x = int(card.width - logo_width + card.width * foil_x_offset)`
(bot.py line 104). -/
def posXI (cardW : Nat) (lw : ℤ) (offX : ℚ) : ℤ :=
  pyInt ((cardW : ℚ) - (lw : ℚ) + (cardW : ℚ) * offX)

/-- `pos_y = int(card.height - logo_height + card.height * foil_y_offset)`
(bot.py line 105). -/
def posYI (cardH : Nat) (lh : ℤ) (offY : ℚ) : ℤ :=
  pyInt ((cardH : ℚ) - (lh : ℚ) + (cardH : ℚ) * offY)

/-- The placement rectangle computed by `add_foil_stamp`: position of the
resized overlay and its size, all as integers. -/
structure RectI where
  x : ℤ
  y : ℤ
  w : ℤ
  h : ℤ
  deriving DecidableEq

/-- The overlay rectangle `add_foil_stamp` computes for a card of size
`cardW × cardH` and a logo of size `logoW × logoH` (bot.py lines 98-105). -/
def foilRect (cardW cardH logoW logoH : Nat) (scale offX offY : ℚ) : RectI :=
  { x := posXI cardW (logoWidthI cardW scale) offX
    y := posYI cardH (logoHeightI logoW logoH (logoWidthI cardW scale)) offY
    w := logoWidthI cardW scale
    h := logoHeightI logoW logoH (logoWidthI cardW scale) }

/-- `Image.resize((w, h), Image.LANCZOS)`: the output has exactly the
requested dimensions; the resampled pixel values are modelled as a fixed
deterministic coordinate sampling of the source (no claim under verification
inspects them, only the dimensions and the pixels left untouched). -/
def resize (im : Img) (w h : Nat) : Img :=
  { width := w
    height := h
    pix := fun x y => im.pix (x * im.width / w) (y * im.height / h) }

/-- Source-over alpha blending of one overlay pixel onto one card pixel
(`Image.alpha_composite` per-pixel semantics, integer arithmetic). -/
def blend (dst src : Pixel) : Pixel :=
  let outA := src.a + dst.a * (255 - src.a) / 255
  let ch := fun (cd cs : Nat) =>
    if outA = 0 then 0
    else (cs * src.a + cd * dst.a * (255 - src.a) / 255) / outA
  { r := ch dst.r src.r, g := ch dst.g src.g, b := ch dst.b src.b, a := outA }

/-- Membership of the pixel coordinate `(x, y)` in the placement rectangle
with corner `(px, py)` and size `w × h`. -/
def inRect (px py w h : ℤ) (x y : Nat) : Prop :=
  px ≤ (x : ℤ) ∧ (x : ℤ) < px + w ∧ py ≤ (y : ℤ) ∧ (y : ℤ) < py + h

instance (px py w h : ℤ) (x y : Nat) : Decidable (inRect px py w h x y) := by
  unfold inRect
  infer_instance

/-- `card.alpha_composite(overlay, dest=(px, py))` after the non-negative
destination check has passed: a new image of the card dimensions in which
exactly the pixels under the overlay rectangle are blended; the part of the
overlay past the right/bottom edge is silently clipped (pixels outside the
card are never part of the result). -/
def compositeAt (card ov : Img) (px py : ℤ) : Img :=
  { width := card.width
    height := card.height
    pix := fun x y =>
      if inRect px py (ov.width : ℤ) (ov.height : ℤ) x y then
        blend (card.pix x y) (ov.pix ((x : ℤ) - px).toNat ((y : ℤ) - py).toNat)
      else card.pix x y }

/-- The image produced by a successful `add_foil_stamp` call: the logo is
resized to the computed size and alpha-composited at the computed position
onto a copy of the card (the original buffers are function arguments and are
never mutated — the embedding is pure). -/
def foilComposite (card logo : Img) (scale offX offY : ℚ) : Img :=
  compositeAt card
    (resize logo (logoWidthI card.width scale).toNat
      (logoHeightI logo.width logo.height (logoWidthI card.width scale)).toNat)
    (posXI card.width (logoWidthI card.width scale) offX)
    (posYI card.height (logoHeightI logo.width logo.height (logoWidthI card.width scale)) offY)

/-- `ratio = logo_width / logo.width` with a zero-width logo. -/
def zeroDivMsg : String := "ZeroDivisionError: division by zero"

/-- `Image.resize` refuses non-positive target dimensions. -/
def resizeErrMsg : String := "ValueError: height and width must be greater than 0"

/-- `Image.alpha_composite` refuses a negative destination. -/
def destErrMsg : String := "ValueError: Destination must be non-negative"

/-- `Image.open` on a missing overlay file. -/
def fileErrMsg : String := "FileNotFoundError: No such file or directory"

/-- `add_foil_stamp(card_image, logo_path)` (bot.py lines 84-113) with the
overlay already loaded and the three environment floats passed explicitly.
Errors are the exceptions the Python code can raise: a zero-width logo makes
`ratio` a division by zero; a non-positive resize target makes `resize`
raise; a negative computed destination makes `alpha_composite` raise.
Otherwise the call succeeds and returns the composited copy. -/
def addFoilStamp (card logo : Img) (scale offX offY : ℚ) : Except String Img :=
  if logo.width = 0 then .error zeroDivMsg
  else if logoWidthI card.width scale ≤ 0 ∨
      logoHeightI logo.width logo.height (logoWidthI card.width scale) ≤ 0 then
    .error resizeErrMsg
  else if posXI card.width (logoWidthI card.width scale) offX < 0 ∨
      posYI card.height (logoHeightI logo.width logo.height (logoWidthI card.width scale))
        offY < 0 then
    .error destErrMsg
  else .ok (foilComposite card logo scale offX offY)

/-- `add_foil_stamp` including the `Image.open(logo_path)` step: a missing or
unreadable overlay file (modelled as `none`) raises the image library's
generic file error. -/
def addFoilStampFromDisk (card : Img) (logoFile : Option Img)
    (scale offX offY : ℚ) : Except String Img :=
  match logoFile with
  | none => .error fileErrMsg
  | some logo => addFoilStamp card logo scale offX offY

/-! ### OCR auditors

OCR text is a `List Char`; a recognizer failure (pytesseract raising) is the
`none` case of the `Option` argument. -/

/-- `leadsWith needle hay` is true when `needle` is an initial segment of
`hay` (helper for Python substring containment). -/
def leadsWith : List Char → List Char → Bool
  | [], _ => true
  | _ :: _, [] => false
  | n :: ns, h :: hs => (n == h) && leadsWith ns hs

/-- Python `needle in hay` on strings: substring containment. -/
def occursIn (needle : List Char) : List Char → Bool
  | [] => needle.isEmpty
  | h :: hs => leadsWith needle (h :: hs) || occursIn needle hs

/-- The token searched by `check_hp_visibility`. -/
def hpToken : List Char := ['H', 'P']

/-- `check_hp_visibility(card_image)` (bot.py lines 115-124): OCR text and
test `"HP" in text.upper()`; if pytesseract raises, `return False`. -/
def checkHpVisibility (ocr : Option (List Char)) : Bool :=
  match ocr with
  | none => false
  | some text => occursIn hpToken (text.map Char.toUpper)

/-- `text.splitlines()` for newline-separated OCR text. -/
def splitLines : List Char → List (List Char)
  | [] => [[]]
  | c :: cs =>
    if c = '\n' then [] :: splitLines cs
    else
      match splitLines cs with
      | [] => [[c]]
      | l :: ls => (c :: l) :: ls

/-- Python `str.strip()`: drop leading and trailing whitespace. -/
def stripChars (l : List Char) : List Char :=
  ((l.dropWhile Char.isWhitespace).reverse.dropWhile Char.isWhitespace).reverse

/-- The word filters of `check_flavor_text`. -/
def weakWord : List Char := ['w', 'e', 'a', 'k']

/-- See `weakWord`. -/
def resistWord : List Char := ['r', 'e', 's', 'i', 's', 't']

/-- `lines = [ln.strip() for ln in text.splitlines() if ln.strip()]`
(bot.py line 133). -/
def strippedLines (text : List Char) : List (List Char) :=
  ((splitLines text).map stripChars).filter (fun l => !l.isEmpty)

/-- The candidate-flavor-line filter of bot.py line 135:
`5 < len(ln) < 80 and "weak" not in ln.lower() and "resist" not in ln.lower()`. -/
def isFlavorCandidate (ln : List Char) : Bool :=
  decide (5 < ln.length) && decide (ln.length < 80) &&
    !occursIn weakWord (ln.map Char.toLower) &&
    !occursIn resistWord (ln.map Char.toLower)

/-- `flavor_candidates` (bot.py line 135). -/
def flavorCandidates (text : List Char) : List (List Char) :=
  (strippedLines text).filter isFlavorCandidate

/-- `list(dict.fromkeys(xs))`: deduplication keeping first occurrences. -/
def pyDedupKeys : List (List Char) → List (List Char)
  | [] => []
  | x :: xs => x :: pyDedupKeys (xs.filter (fun y => y ≠ x))
termination_by l => l.length
decreasing_by
  exact Nat.lt_succ_of_le (List.length_filter_le _ _)

/-- `check_flavor_text(card_image)` (bot.py lines 126-141): true iff the
candidate flavor lines contain no exact duplicate; if pytesseract raises,
`return True` (pass silently). -/
def checkFlavorText (ocr : Option (List Char)) : Bool :=
  match ocr with
  | none => true
  | some text =>
    let cands := flavorCandidates text
    cands.length == (pyDedupKeys cands).length

/-! ### Telegram handlers and the conversation gate -/

/-- The distinct chat replies the handlers can produce. -/
inductive Reply where
  /-- The rejection of bot.py lines 166-168: use /generate or the button
  before sending an image. -/
  | promptTrigger
  /-- The progress message of bot.py line 174. -/
  | generating
  /-- The final `reply_photo` carrying the composited card. -/
  | cardPhoto
  /-- `Sorry, something went wrong:` followed by the exception text. -/
  | apology (e : String)
  /-- The `/generate` acknowledgment asking for a meme image. -/
  | sendMeme
  /-- The button acknowledgment asking for a new meme image. -/
  | sendAnother
  deriving DecidableEq

/-- The observable outcome of one handler invocation: whether the image (if
any) passed the gate, the gate flag after the handler returns, whether a card
was delivered, and the replies sent. -/
structure HandleResult where
  accepted : Bool
  gateAfter : Bool
  cardDelivered : Bool
  replies : List Reply
  deriving DecidableEq

/-- `handle_image` (bot.py lines 161-210).  `canGenerate` is the user's
`context.user_data["can_generate"]` flag on entry; `pipeline` is the combined
outcome of the try block (synthesis, audits, stamping, sending), `Except.error`
being any exception raised inside it.  The whole body is total: the except
clause converts every pipeline exception into an apology reply, so nothing
propagates out of the handler. -/
def handleImage (canGenerate : Bool) (pipeline : Except String Img) : HandleResult :=
  if canGenerate = false then
    { accepted := false
      gateAfter := canGenerate
      cardDelivered := false
      replies := [.promptTrigger] }
  else
    match pipeline with
    | .ok _ =>
      { accepted := true
        gateAfter := false
        cardDelivered := true
        replies := [.generating, .cardPhoto] }
    | .error e =>
      { accepted := true
        gateAfter := false
        cardDelivered := false
        replies := [.generating, .apology e] }

/-- The callback payload of the single inline button. -/
def createAnotherData : String := "create_another"

/-- The events a single user can send to the bot dispatcher. -/
inductive Event where
  /-- The `/generate` command (bot.py lines 152-159). -/
  | cmdGenerate
  /-- A photo message; carries the outcome of the processing pipeline that
  runs if the gate admits it. -/
  | image (pipeline : Except String Img)
  /-- An inline-button press with its callback data (bot.py lines 212-219). -/
  | callback (data : String)

/-- One dispatcher step for one user: `/generate` arms the gate,
`handle_image` consumes it, `button_callback` re-arms it only for the
`create_another` payload. -/
def processEvent (gate : Bool) : Event → HandleResult
  | .cmdGenerate =>
    { accepted := false, gateAfter := true, cardDelivered := false
      replies := [.sendMeme] }
  | .image pipeline => handleImage gate pipeline
  | .callback data =>
    if data = createAnotherData then
      { accepted := false, gateAfter := true, cardDelivered := false
        replies := [.sendAnother] }
    else
      { accepted := false, gateAfter := gate, cardDelivered := false
        replies := [] }

/-- Run a sequence of events for one user, threading the gate flag, and
collect each event's outcome. -/
def runEvents (gate : Bool) : List Event → List HandleResult
  | [] => []
  | e :: es =>
    let o := processEvent gate e
    o :: runEvents o.gateAfter es

/-! ### Photo-variant selection -/

/-- One resolution variant of a Telegram photo message. -/
structure PhotoSize where
  width : Nat
  height : Nat
  deriving DecidableEq

/-- Pixel count of a variant. -/
def photoArea (p : PhotoSize) : Nat := p.width * p.height

/-- `photo = update.message.photo[-1]` (bot.py line 176): the last listed
variant; `none` only for an empty list, which the PHOTO filter excludes. -/
def selectedPhoto (photos : List PhotoSize) : Option PhotoSize :=
  photos.getLast?

/-! ### Concrete test fixtures -/

/-- A 100 × 100 opaque card. -/
def testCard : Img := ⟨100, 100, fun _ _ => ⟨0, 0, 0, 255⟩⟩

/-- A 10 × 10 half-transparent logo. -/
def testLogo : Img := ⟨10, 10, fun _ _ => ⟨255, 255, 255, 128⟩⟩

/-- A 100 × 200 opaque card. -/
def tallCard : Img := ⟨100, 200, fun _ _ => ⟨0, 0, 0, 255⟩⟩

/-- A stand-in for the text of a synthesis exception. -/
def apiTimeoutMsg : String := "Request timed out"

/-! ### Helper lemmas -/

theorem pyInt_eq_floor {q : ℚ} (h : 0 ≤ q) : pyInt q = ⌊q⌋ := if_pos h

theorem pyInt_intCast (n : ℤ) : pyInt ((n : ℤ) : ℚ) = n := by
  unfold pyInt
  split
  · exact Int.floor_intCast n
  · exact Int.ceil_intCast n

theorem logoWidthI_100_13 : logoWidthI 100 (13 / 100) = 13 := by
  unfold logoWidthI
  rw [show ((100 : ℕ) : ℚ) * (13 / 100) = ((13 : ℤ) : ℚ) by norm_num]
  exact pyInt_intCast 13

theorem logoHeightI_10_10_13 : logoHeightI 10 10 13 = 13 := by
  unfold logoHeightI
  rw [show ((10 : ℕ) : ℚ) * (((13 : ℤ) : ℚ) / ((10 : ℕ) : ℚ)) = ((13 : ℤ) : ℚ) by
    push_cast; norm_num]
  exact pyInt_intCast 13

theorem posXI_100_13_0 : posXI 100 13 0 = 87 := by
  unfold posXI
  rw [show ((100 : ℕ) : ℚ) - ((13 : ℤ) : ℚ) + ((100 : ℕ) : ℚ) * 0 = ((87 : ℤ) : ℚ) by
    push_cast; norm_num]
  exact pyInt_intCast 87

theorem posXI_100_13_half : posXI 100 13 (1 / 2) = 137 := by
  unfold posXI
  rw [show ((100 : ℕ) : ℚ) - ((13 : ℤ) : ℚ) + ((100 : ℕ) : ℚ) * (1 / 2) = ((137 : ℤ) : ℚ) by
    push_cast; norm_num]
  exact pyInt_intCast 137

theorem posYI_100_13_0 : posYI 100 13 0 = 87 := by
  unfold posYI
  rw [show ((100 : ℕ) : ℚ) - ((13 : ℤ) : ℚ) + ((100 : ℕ) : ℚ) * 0 = ((87 : ℤ) : ℚ) by
    push_cast; norm_num]
  exact pyInt_intCast 87

/-! ### Claim C2 — synthesis failure handling -/

/-- C2 counterexample: after a failed pipeline the gate is NOT re-armed —
`handle_image` clears `can_generate` before the try block and the except
clause never sets it back, so the flag is `false` on exit, contradicting the
claim that the gate is re-armed. -/
theorem synthesis_failure_does_not_rearm_gate :
    (handleImage true (Except.error apiTimeoutMsg)).gateAfter = false := rfl

/-- C2 as amended: whenever the pipeline inside `handle_image` fails, the
user is informed with the apology message carrying the error text, no card is
delivered, and the handler returns normally (the embedding is a total
function, so the exception never escapes); however the gate remains cleared
(`false`) rather than being re-armed. -/
theorem synthesis_failure_informs_user_without_rearm (e : String) :
    handleImage true (Except.error e) =
      { accepted := true
        gateAfter := false
        cardDelivered := false
        replies := [Reply.generating, Reply.apology e] } := rfl

/-! ### Claim C3 — auditor failure behaviour -/

/-- C3 counterexample: on a recognition failure (`none`), `check_hp_visibility`
returns `false`, not `true` as the claim states for both auditors. -/
theorem hp_audit_fails_closed_on_ocr_error :
    checkHpVisibility none = false := rfl

/-- C3 as amended: neither auditor raises (both are total over the failing
recognizer case), but on recognition failure only `check_flavor_text`
returns `true` (pass); `check_hp_visibility` returns `false`. -/
theorem audits_total_but_hp_fails_closed :
    checkHpVisibility none = false ∧ checkFlavorText none = true := ⟨rfl, rfl⟩

/-! ### Claim C4 — conversation-gate event sequences -/

/-- C4: for every initial gate value and any pipeline outcomes, the sequence
[/generate, image A, image B] ends with B rejected with the trigger-first
message and no card delivered for B (while A was accepted); the sequence
[/generate, image A, create-another click, image B] ends with B accepted. -/
theorem conversation_gate_event_sequences (g0 : Bool)
    (pA pB : Except String Img) :
    (runEvents g0 [Event.cmdGenerate, Event.image pA, Event.image pB]).getLast? =
      some { accepted := false, gateAfter := false, cardDelivered := false
             replies := [Reply.promptTrigger] } ∧
    ((runEvents g0 [Event.cmdGenerate, Event.image pA, Event.image pB])[1]?).map
      HandleResult.accepted = some true ∧
    ((runEvents g0 [Event.cmdGenerate, Event.image pA,
        Event.callback createAnotherData, Event.image pB]).getLast?).map
      HandleResult.accepted = some true := by
  cases pA <;> cases pB <;>
    simp [runEvents, processEvent, handleImage, createAnotherData]

/-! ### Claim C10 — flavor audit with no candidates -/

/-- C10: whenever the recognized text yields no candidate flavor lines, the
duplicate check passes vacuously and `check_flavor_text` returns `true`. -/
theorem flavor_audit_passes_on_empty_candidates (text : List Char)
    (h : flavorCandidates text = []) :
    checkFlavorText (some text) = true := by
  show ((flavorCandidates text).length ==
    (pyDedupKeys (flavorCandidates text)).length) = true
  rw [h]
  simp [pyDedupKeys]

/-- The OCR text of a card with no flavor lines: one short line, below the
candidate length filter. -/
def noFlavorText : List Char := "abc".toList

/-- C10 witness at a concrete text with no candidate lines. -/
theorem flavor_audit_passes_on_empty_candidates_witness :
    flavorCandidates noFlavorText = [] ∧ checkFlavorText (some noFlavorText) = true :=
  ⟨rfl, flavor_audit_passes_on_empty_candidates noFlavorText rfl⟩

/-! ### Claim C9 — photo variant selection -/

theorem sorted_getLast_max {l : List PhotoSize} {p : PhotoSize}
    (hs : List.Sorted (fun a b => photoArea a ≤ photoArea b) l)
    (hl : l.getLast? = some p) :
    ∀ q ∈ l, photoArea q ≤ photoArea p := by
  induction l with
  | nil => simp at hl
  | cons x t ih =>
    rw [List.sorted_cons] at hs
    obtain ⟨hx, ht⟩ := hs
    cases t with
    | nil =>
      rw [List.getLast?_singleton] at hl
      cases hl
      intro q hq
      rw [List.mem_singleton] at hq
      subst hq
      exact le_refl _
    | cons y t2 =>
      rw [List.getLast?_cons_cons] at hl
      intro q hq
      rcases List.mem_cons.mp hq with rfl | hq2
      · obtain ⟨hne, hpl⟩ := List.mem_getLast?_eq_getLast (l := y :: t2) (x := p) hl
        exact hx p (hpl ▸ List.getLast_mem hne)
      · exact ih ht hl q hq2

/-- C9: `handle_image` takes `update.message.photo[-1]`; under Telegram's
guarantee that the variants are listed in ascending resolution, the selected
variant has the largest pixel count — all smaller variants are ignored. -/
theorem selected_photo_is_highest_resolution (photos : List PhotoSize)
    (p : PhotoSize) (hsel : selectedPhoto photos = some p)
    (hsort : List.Sorted (fun a b => photoArea a ≤ photoArea b) photos) :
    ∀ q ∈ photos, photoArea q ≤ photoArea p :=
  sorted_getLast_max hsort hsel

/-- The three variants Telegram typically attaches to one photo. -/
def photoVariants : List PhotoSize := [⟨90, 90⟩, ⟨320, 320⟩, ⟨800, 800⟩]

/-- C9 witness on a concrete ascending variant list. -/
theorem selected_photo_is_highest_resolution_witness :
    selectedPhoto photoVariants = some ⟨800, 800⟩ ∧
    photoArea ⟨90, 90⟩ ≤ photoArea ⟨800, 800⟩ :=
  ⟨rfl, selected_photo_is_highest_resolution photoVariants ⟨800, 800⟩ rfl
    (by decide) ⟨90, 90⟩ (by decide)⟩

/-! ### Claim C8 — HP audit semantics -/

theorem leadsWith_iff_append (n : List Char) :
    ∀ h : List Char, leadsWith n h = true ↔ ∃ t, h = n ++ t := by
  induction n with
  | nil =>
    intro h
    simp [leadsWith]
  | cons a as ih =>
    intro h
    cases h with
    | nil =>
      simp [leadsWith]
    | cons b bs =>
      rw [leadsWith, Bool.and_eq_true, beq_iff_eq, ih bs]
      constructor
      · rintro ⟨rfl, t, rfl⟩
        exact ⟨t, rfl⟩
      · rintro ⟨t, ht⟩
        injection ht with h1 h2
        exact ⟨h1.symm, t, h2⟩

theorem occursIn_iff_append (n : List Char) :
    ∀ h : List Char, occursIn n h = true ↔ ∃ pre post, h = pre ++ n ++ post := by
  intro h
  induction h with
  | nil =>
    rw [occursIn]
    constructor
    · intro he
      refine ⟨[], [], ?_⟩
      rw [List.isEmpty_iff] at he
      simp [he]
    · rintro ⟨pre, post, hp⟩
      rw [List.isEmpty_iff]
      rcases List.append_eq_nil.mp hp.symm with ⟨h1, _⟩
      rcases List.append_eq_nil.mp h1 with ⟨_, h3⟩
      exact h3
  | cons c cs ih =>
    rw [occursIn, Bool.or_eq_true, leadsWith_iff_append, ih]
    constructor
    · rintro (⟨t, ht⟩ | ⟨pre, post, hp⟩)
      · exact ⟨[], t, by simpa using ht⟩
      · exact ⟨c :: pre, post, by simp [hp]⟩
    · rintro ⟨pre, post, hp⟩
      cases pre with
      | nil =>
        left
        exact ⟨post, by simpa using hp⟩
      | cons d ds =>
        right
        injection hp with h1 h2
        exact ⟨ds, post, h2⟩

/-- The spec-side property, stated independently of the code: some substring
of the recognized text spells "HP" up to letter case. -/
def hpFoundCaseInsensitive (text : List Char) : Prop :=
  ∃ pre s post, text = pre ++ s ++ post ∧ s.map Char.toUpper = hpToken

/-- The OCR reading of a card showing the text HP100. -/
def hp100Text : List Char := "HP100".toList

/-- C8: `check_hp_visibility` returns true exactly when a case-insensitive
HP token occurs anywhere in the recognized text; concretely it accepts the
reading of a card rendered with HP100 and rejects a card with no
recognizable text (empty reading). -/
theorem hp_audit_iff_case_insensitive_token :
    (∀ text : List Char,
      checkHpVisibility (some text) = true ↔ hpFoundCaseInsensitive text) ∧
    checkHpVisibility (some hp100Text) = true ∧
    checkHpVisibility (some []) = false := by
  refine ⟨?_, by decide, rfl⟩
  intro text
  show occursIn hpToken (text.map Char.toUpper) = true ↔ hpFoundCaseInsensitive text
  rw [occursIn_iff_append]
  constructor
  · rintro ⟨pre, post, hp⟩
    rw [List.map_eq_append_iff] at hp
    obtain ⟨t12, t3, rfl, h1, h2⟩ := hp
    rw [List.map_eq_append_iff] at h1
    obtain ⟨t1, t2, rfl, h1a, h1b⟩ := h1
    exact ⟨t1, t2, t3, rfl, h1b⟩
  · rintro ⟨pre, s, post, rfl, hs⟩
    exact ⟨pre.map Char.toUpper, post.map Char.toUpper, by simp [hs]⟩

/-! ### Claim C5 — aspect-ratio preservation under resize -/

theorem logoWidthI_nonneg {cardW : Nat} {scale : ℚ} (h : 0 ≤ scale) :
    0 ≤ logoWidthI cardW scale := by
  unfold logoWidthI
  have hq : (0 : ℚ) ≤ (cardW : ℚ) * scale :=
    mul_nonneg (Nat.cast_nonneg cardW) h
  rw [pyInt_eq_floor hq]
  exact Int.floor_nonneg.mpr hq

/-- C5: for every scale in (0, 1] and overlay with nonzero dimensions, the
height `add_foil_stamp` computes for the resized overlay differs from the
exactly aspect-preserving height `logo_width * logo.height / logo.width` by
at most one pixel. -/
theorem resize_keeps_aspect_within_one_pixel (cardW logoW logoH : Nat)
    (scale : ℚ) (_hw : 1 ≤ logoW) (h0 : 0 < scale) (_h1 : scale ≤ 1) :
    |(logoHeightI logoW logoH (logoWidthI cardW scale) : ℚ) -
      (logoWidthI cardW scale : ℚ) * (logoH : ℚ) / (logoW : ℚ)| ≤ 1 := by
  have hlw : 0 ≤ logoWidthI cardW scale := logoWidthI_nonneg h0.le
  set q : ℚ :=
    (logoH : ℚ) * ((logoWidthI cardW scale : ℚ) / (logoW : ℚ)) with hqdef
  have hq0 : 0 ≤ q := by
    apply mul_nonneg (Nat.cast_nonneg logoH)
    apply div_nonneg _ (Nat.cast_nonneg logoW)
    exact_mod_cast hlw
  have hfl : logoHeightI logoW logoH (logoWidthI cardW scale) = ⌊q⌋ := by
    unfold logoHeightI
    rw [pyInt_eq_floor hq0]
  rw [hfl]
  have heq : (logoWidthI cardW scale : ℚ) * (logoH : ℚ) / (logoW : ℚ) = q := by
    rw [hqdef]
    ring
  rw [heq]
  have hle : (⌊q⌋ : ℚ) ≤ q := Int.floor_le q
  have hlt : q - 1 < (⌊q⌋ : ℚ) := Int.sub_one_lt_floor q
  rw [abs_le]
  constructor <;> linarith

/-- C5 witness at the defaults: card width 100, logo 10 × 10, scale 0.13. -/
theorem resize_keeps_aspect_within_one_pixel_witness :
    (1 ≤ 10) ∧ (0 < (13 / 100 : ℚ)) ∧ ((13 / 100 : ℚ) ≤ 1) ∧
    |(logoHeightI 10 10 (logoWidthI 100 (13 / 100)) : ℚ) -
      (logoWidthI 100 (13 / 100) : ℚ) * (10 : ℚ) / (10 : ℚ)| ≤ 1 :=
  ⟨by norm_num, by norm_num, by norm_num,
    resize_keeps_aspect_within_one_pixel 100 10 10 (13 / 100)
      (by norm_num) (by norm_num) (by norm_num)⟩

/-! ### Claim C1 — overlay placement and bounds -/

/-- C1 counterexample: with scale 0.13 and x-offset 0.5 on a 100 × 100 card
and a 10 × 10 logo, the computed rectangle is x = 137, y = 87, 13 × 13 — its
right edge (150) is past the card bound 100 — and `add_foil_stamp`
nevertheless succeeds: no clamping and no failure, contradicting the claimed
containment in [0, W] × [0, H]. -/
theorem offset_pushes_overlay_out_of_bounds :
    foilRect 100 100 10 10 (13 / 100) (1 / 2) 0 =
      { x := 137, y := 87, w := 13, h := 13 } ∧
    ¬((foilRect 100 100 10 10 (13 / 100) (1 / 2) 0).x +
        (foilRect 100 100 10 10 (13 / 100) (1 / 2) 0).w ≤ (100 : ℤ)) ∧
    addFoilStamp testCard testLogo (13 / 100) (1 / 2) 0 =
      Except.ok (foilComposite testCard testLogo (13 / 100) (1 / 2) 0) := by
  have hrect : foilRect 100 100 10 10 (13 / 100) (1 / 2) 0 =
      { x := 137, y := 87, w := 13, h := 13 } := by
    show RectI.mk (posXI 100 (logoWidthI 100 (13 / 100)) (1 / 2))
      (posYI 100 (logoHeightI 10 10 (logoWidthI 100 (13 / 100))) 0)
      (logoWidthI 100 (13 / 100))
      (logoHeightI 10 10 (logoWidthI 100 (13 / 100))) = _
    rw [logoWidthI_100_13, logoHeightI_10_10_13, posXI_100_13_half, posYI_100_13_0]
  refine ⟨hrect, by rw [hrect]; decide, ?_⟩
  unfold addFoilStamp
  have hcw : testCard.width = 100 := rfl
  have hch : testCard.height = 100 := rfl
  have hgw : testLogo.width = 10 := rfl
  have hgh : testLogo.height = 10 := rfl
  rw [hcw, hch, hgw, hgh, logoWidthI_100_13, logoHeightI_10_10_13,
    posXI_100_13_half, posYI_100_13_0]
  norm_num

/-- C1 as amended: `add_foil_stamp` uses no margin parameter — the position
is `x = int(W - overlay_width + W * offset_x)` and likewise for y — and never
clamps.  With the default offsets (0) and any scale in [0, 1] the overlay is
flush with the bottom-right corner: `x + w = W` with `x ≥ 0`, and, whenever
the derived overlay height fits the card, `y + h = H` with `y ≥ 0`, so the
rectangle lies fully inside [0, W] × [0, H].  Nonzero offsets can move the
rectangle out of bounds without error (see the counterexample). -/
theorem foil_rect_in_bounds_at_default_offsets
    (cardW cardH logoW logoH : Nat) (scale : ℚ)
    (h0 : 0 ≤ scale) (h1 : scale ≤ 1) :
    0 ≤ (foilRect cardW cardH logoW logoH scale 0 0).x ∧
    (foilRect cardW cardH logoW logoH scale 0 0).x +
      (foilRect cardW cardH logoW logoH scale 0 0).w = (cardW : ℤ) ∧
    0 ≤ (foilRect cardW cardH logoW logoH scale 0 0).h ∧
    ((foilRect cardW cardH logoW logoH scale 0 0).h ≤ (cardH : ℤ) →
      0 ≤ (foilRect cardW cardH logoW logoH scale 0 0).y ∧
      (foilRect cardW cardH logoW logoH scale 0 0).y +
        (foilRect cardW cardH logoW logoH scale 0 0).h = (cardH : ℤ)) := by
  have hx : (foilRect cardW cardH logoW logoH scale 0 0).x =
      posXI cardW (logoWidthI cardW scale) 0 := rfl
  have hy : (foilRect cardW cardH logoW logoH scale 0 0).y =
      posYI cardH (logoHeightI logoW logoH (logoWidthI cardW scale)) 0 := rfl
  have hwr : (foilRect cardW cardH logoW logoH scale 0 0).w =
      logoWidthI cardW scale := rfl
  have hhr : (foilRect cardW cardH logoW logoH scale 0 0).h =
      logoHeightI logoW logoH (logoWidthI cardW scale) := rfl
  have hlw0 : 0 ≤ logoWidthI cardW scale := logoWidthI_nonneg h0
  have hlwW : logoWidthI cardW scale ≤ (cardW : ℤ) := by
    unfold logoWidthI
    rw [pyInt_eq_floor (mul_nonneg (Nat.cast_nonneg cardW) h0)]
    calc ⌊(cardW : ℚ) * scale⌋ ≤ ⌊(cardW : ℚ)⌋ := by
          apply Int.floor_mono
          calc (cardW : ℚ) * scale ≤ (cardW : ℚ) * 1 :=
                mul_le_mul_of_nonneg_left h1 (Nat.cast_nonneg cardW)
            _ = (cardW : ℚ) := mul_one _
      _ = (cardW : ℤ) := Int.floor_natCast cardW
  have hpx : posXI cardW (logoWidthI cardW scale) 0 =
      (cardW : ℤ) - logoWidthI cardW scale := by
    unfold posXI
    rw [show (cardW : ℚ) - (logoWidthI cardW scale : ℚ) + (cardW : ℚ) * 0 =
        (((cardW : ℤ) - logoWidthI cardW scale : ℤ) : ℚ) by push_cast; ring]
    exact pyInt_intCast _
  have hlh0 : 0 ≤ logoHeightI logoW logoH (logoWidthI cardW scale) := by
    unfold logoHeightI
    have hq : (0 : ℚ) ≤ (logoH : ℚ) * ((logoWidthI cardW scale : ℚ) / (logoW : ℚ)) := by
      apply mul_nonneg (Nat.cast_nonneg logoH)
      apply div_nonneg _ (Nat.cast_nonneg logoW)
      exact_mod_cast hlw0
    rw [pyInt_eq_floor hq]
    exact Int.floor_nonneg.mpr hq
  have hpy : posYI cardH (logoHeightI logoW logoH (logoWidthI cardW scale)) 0 =
      (cardH : ℤ) - logoHeightI logoW logoH (logoWidthI cardW scale) := by
    unfold posYI
    rw [show (cardH : ℚ) - (logoHeightI logoW logoH (logoWidthI cardW scale) : ℚ) +
        (cardH : ℚ) * 0 =
        (((cardH : ℤ) - logoHeightI logoW logoH (logoWidthI cardW scale) : ℤ) : ℚ) by
      push_cast; ring]
    exact pyInt_intCast _
  rw [hx, hy, hwr, hhr, hpx, hpy]
  refine ⟨by omega, by omega, hlh0, fun hfit => ⟨by omega, by omega⟩⟩

theorem logoWidthI_1024_13 : logoWidthI 1024 (13 / 100) = 133 := by
  unfold logoWidthI
  rw [pyInt_eq_floor (by norm_num)]
  norm_num [Int.floor_eq_iff]

theorem logoHeightI_10_10_133 : logoHeightI 10 10 133 = 133 := by
  unfold logoHeightI
  rw [show ((10 : ℕ) : ℚ) * (((133 : ℤ) : ℚ) / ((10 : ℕ) : ℚ)) = ((133 : ℤ) : ℚ) by
    push_cast; norm_num]
  exact pyInt_intCast 133

/-- C1 witness at the 1024 × 1536 card of the end-to-end scenario with the
default scale 0.13 and offsets 0. -/
theorem foil_rect_in_bounds_at_default_offsets_witness :
    (0 ≤ (13 / 100 : ℚ)) ∧ ((13 / 100 : ℚ) ≤ 1) ∧
    0 ≤ (foilRect 1024 1536 10 10 (13 / 100) 0 0).x ∧
    (foilRect 1024 1536 10 10 (13 / 100) 0 0).x +
      (foilRect 1024 1536 10 10 (13 / 100) 0 0).w = (1024 : ℤ) ∧
    0 ≤ (foilRect 1024 1536 10 10 (13 / 100) 0 0).y ∧
    (foilRect 1024 1536 10 10 (13 / 100) 0 0).y +
      (foilRect 1024 1536 10 10 (13 / 100) 0 0).h = (1536 : ℤ) := by
  have hfit : (foilRect 1024 1536 10 10 (13 / 100) 0 0).h ≤ (1536 : ℤ) := by
    show logoHeightI 10 10 (logoWidthI 1024 (13 / 100)) ≤ (1536 : ℤ)
    rw [logoWidthI_1024_13, logoHeightI_10_10_133]
    decide
  have h := foil_rect_in_bounds_at_default_offsets 1024 1536 10 10 (13 / 100)
    (by norm_num) (by norm_num)
  exact ⟨by norm_num, by norm_num, h.1, h.2.1, (h.2.2.2 hfit).1, (h.2.2.2 hfit).2⟩

/-! ### Claim C6 — compositing is a pure frame effect -/

/-- C6: a successful `add_foil_stamp` yields an image with the card's
dimensions in which every pixel outside the computed overlay rectangle equals
the corresponding card pixel, and a second call on the same inputs returns
the same output (the embedding is a pure function of its arguments, so the
original card and overlay buffers — which the Python code copies via
`convert("RGBA")` — are untouched). -/
theorem compose_dims_outside_pixels_deterministic (card logo : Img)
    (scale offX offY : ℚ) (out : Img)
    (h : addFoilStamp card logo scale offX offY = Except.ok out) :
    out.width = card.width ∧ out.height = card.height ∧
    (∀ x y : Nat,
      ¬ inRect (foilRect card.width card.height logo.width logo.height scale offX offY).x
        (foilRect card.width card.height logo.width logo.height scale offX offY).y
        (foilRect card.width card.height logo.width logo.height scale offX offY).w
        (foilRect card.width card.height logo.width logo.height scale offX offY).h x y →
      out.pix x y = card.pix x y) ∧
    (∀ out2 : Img,
      addFoilStamp card logo scale offX offY = Except.ok out2 → out2 = out) := by
  unfold addFoilStamp at h
  by_cases h1 : logo.width = 0
  · rw [if_pos h1] at h
    exact absurd h (by simp)
  rw [if_neg h1] at h
  by_cases h2 : logoWidthI card.width scale ≤ 0 ∨
      logoHeightI logo.width logo.height (logoWidthI card.width scale) ≤ 0
  · rw [if_pos h2] at h
    exact absurd h (by simp)
  rw [if_neg h2] at h
  by_cases h3 : posXI card.width (logoWidthI card.width scale) offX < 0 ∨
      posYI card.height (logoHeightI logo.width logo.height (logoWidthI card.width scale))
        offY < 0
  · rw [if_pos h3] at h
    exact absurd h (by simp)
  rw [if_neg h3] at h
  injection h with hout
  subst hout
  push_neg at h2
  obtain ⟨hlw, hlh⟩ := h2
  refine ⟨rfl, rfl, ?_, ?_⟩
  · intro x y hnot
    have hcast1 : (((logoWidthI card.width scale).toNat : ℕ) : ℤ) =
        logoWidthI card.width scale := Int.toNat_of_nonneg hlw.le
    have hcast2 : (((logoHeightI logo.width logo.height
          (logoWidthI card.width scale)).toNat : ℕ) : ℤ) =
        logoHeightI logo.width logo.height (logoWidthI card.width scale) :=
      Int.toNat_of_nonneg hlh.le
    have hnot2 : ¬ inRect
        (posXI card.width (logoWidthI card.width scale) offX)
        (posYI card.height
          (logoHeightI logo.width logo.height (logoWidthI card.width scale)) offY)
        (((logoWidthI card.width scale).toNat : ℕ) : ℤ)
        (((logoHeightI logo.width logo.height
          (logoWidthI card.width scale)).toNat : ℕ) : ℤ) x y := by
      rw [hcast1, hcast2]
      exact hnot
    exact if_neg hnot2
  · intro out2 h2'
    unfold addFoilStamp at h2'
    rw [if_neg h1, if_neg (by push_neg; exact ⟨hlw, hlh⟩), if_neg h3] at h2'
    injection h2' with h2out
    exact h2out.symm

/-- The default call on the 100 × 100 test fixtures succeeds. -/
theorem addFoilStamp_test_default :
    addFoilStamp testCard testLogo (13 / 100) 0 0 =
      Except.ok (foilComposite testCard testLogo (13 / 100) 0 0) := by
  unfold addFoilStamp
  have hcw : testCard.width = 100 := rfl
  have hch : testCard.height = 100 := rfl
  have hgw : testLogo.width = 10 := rfl
  have hgh : testLogo.height = 10 := rfl
  rw [hcw, hch, hgw, hgh, logoWidthI_100_13, logoHeightI_10_10_13,
    posXI_100_13_0, posYI_100_13_0]
  norm_num

/-- C6 witness: on the 100 × 100 card with the default layout the call
succeeds, the output keeps the card dimensions, and the corner pixel (0,0) —
outside the overlay rectangle (87, 87, 13, 13) — is unchanged. -/
theorem compose_dims_outside_pixels_deterministic_witness :
    addFoilStamp testCard testLogo (13 / 100) 0 0 =
      Except.ok (foilComposite testCard testLogo (13 / 100) 0 0) ∧
    (foilComposite testCard testLogo (13 / 100) 0 0).width = testCard.width ∧
    (foilComposite testCard testLogo (13 / 100) 0 0).pix 0 0 = testCard.pix 0 0 := by
  have h := compose_dims_outside_pixels_deterministic testCard testLogo
    (13 / 100) 0 0 (foilComposite testCard testLogo (13 / 100) 0 0)
    addFoilStamp_test_default
  refine ⟨addFoilStamp_test_default, h.1, h.2.2.1 0 0 ?_⟩
  have hrect : foilRect testCard.width testCard.height testLogo.width
      testLogo.height (13 / 100) 0 0 = { x := 87, y := 87, w := 13, h := 13 } := by
    show RectI.mk (posXI 100 (logoWidthI 100 (13 / 100)) 0)
      (posYI 100 (logoHeightI 10 10 (logoWidthI 100 (13 / 100))) 0)
      (logoWidthI 100 (13 / 100))
      (logoHeightI 10 10 (logoWidthI 100 (13 / 100))) = _
    rw [logoWidthI_100_13, logoHeightI_10_10_13, posXI_100_13_0, posYI_100_13_0]
  rw [hrect]
  decide

/-! ### Claim C7 — layout validation and failure modes -/

theorem logoWidthI_100_1001 : logoWidthI 100 (1001 / 1000) = 100 := by
  unfold logoWidthI
  rw [pyInt_eq_floor (by norm_num)]
  norm_num [Int.floor_eq_iff]

theorem logoHeightI_10_10_100 : logoHeightI 10 10 100 = 100 := by
  unfold logoHeightI
  rw [show ((10 : ℕ) : ℚ) * (((100 : ℤ) : ℚ) / ((10 : ℕ) : ℚ)) = ((100 : ℤ) : ℚ) by
    push_cast; norm_num]
  exact pyInt_intCast 100

theorem posXI_100_100_0 : posXI 100 100 0 = 0 := by
  unfold posXI
  rw [show ((100 : ℕ) : ℚ) - ((100 : ℤ) : ℚ) + ((100 : ℕ) : ℚ) * 0 = ((0 : ℤ) : ℚ) by
    push_cast; norm_num]
  exact pyInt_intCast 0

theorem posYI_200_100_0 : posYI 200 100 0 = 100 := by
  unfold posYI
  rw [show ((200 : ℕ) : ℚ) - ((100 : ℤ) : ℚ) + ((200 : ℕ) : ℚ) * 0 = ((100 : ℤ) : ℚ) by
    push_cast; norm_num]
  exact pyInt_intCast 100

/-- With scale 1.001 on a 100 × 200 card and 10 × 10 logo, `add_foil_stamp`
succeeds: the overlay resizes to 100 × 100 and lands at (0, 100). -/
theorem addFoilStamp_tall_above_one :
    addFoilStamp tallCard testLogo (1001 / 1000) 0 0 =
      Except.ok (foilComposite tallCard testLogo (1001 / 1000) 0 0) := by
  unfold addFoilStamp
  have hcw : tallCard.width = 100 := rfl
  have hch : tallCard.height = 200 := rfl
  have hgw : testLogo.width = 10 := rfl
  have hgh : testLogo.height = 10 := rfl
  rw [hcw, hch, hgw, hgh, logoWidthI_100_1001, logoHeightI_10_10_100,
    posXI_100_100_0, posYI_200_100_0]
  norm_num

/-- C7 counterexample: scale 1.001 > 1, yet `add_foil_stamp` produces a
composited image instead of failing with any layout error — the code never
validates the scale. -/
theorem scale_above_one_composites_without_error :
    ((1 : ℚ) < 1001 / 1000) ∧
    addFoilStamp tallCard testLogo (1001 / 1000) 0 0 =
      Except.ok (foilComposite tallCard testLogo (1001 / 1000) 0 0) :=
  ⟨by norm_num, addFoilStamp_tall_above_one⟩

/-- C7 as amended: `add_foil_stamp` performs no scale validation and raises
no dedicated layout errors.  A scale ≤ 0 makes the resize step fail with the
image library's generic error (the computed overlay width is non-positive);
a scale above 1 is not rejected and can produce a composited image; a missing
overlay file surfaces as the library's generic file error rather than a
distinct asset-not-found error. -/
theorem no_scale_validation_and_generic_errors :
    (∀ (card logo : Img) (scale offX offY : ℚ), scale ≤ 0 → logo.width ≠ 0 →
      addFoilStamp card logo scale offX offY = Except.error resizeErrMsg) ∧
    (∀ (card : Img) (scale offX offY : ℚ),
      addFoilStampFromDisk card none scale offX offY = Except.error fileErrMsg) ∧
    addFoilStamp tallCard testLogo (1001 / 1000) 0 0 =
      Except.ok (foilComposite tallCard testLogo (1001 / 1000) 0 0) := by
  refine ⟨?_, fun card scale offX offY => rfl, addFoilStamp_tall_above_one⟩
  intro card logo scale offX offY hs hlw
  have hc : (0 : ℚ) ≤ (card.width : ℚ) := Nat.cast_nonneg _
  have hq : (card.width : ℚ) * scale ≤ 0 := by nlinarith
  have hle : logoWidthI card.width scale ≤ 0 := by
    unfold logoWidthI pyInt
    split
    · exact Int.floor_nonpos hq
    · exact Int.ceil_le.mpr (by exact_mod_cast hq)
  unfold addFoilStamp
  rw [if_neg hlw, if_pos (Or.inl hle)]

/-- C7 witness: scale 0 fails with the generic resize error, and a missing
overlay file fails with the generic file error. -/
theorem no_scale_validation_and_generic_errors_witness :
    ((0 : ℚ) ≤ 0) ∧ (testLogo.width ≠ 0) ∧
    addFoilStamp testCard testLogo 0 0 0 = Except.error resizeErrMsg ∧
    addFoilStampFromDisk testCard none 0 0 0 = Except.error fileErrMsg :=
  ⟨le_refl 0, by decide,
    no_scale_validation_and_generic_errors.1 testCard testLogo 0 0 0
      (le_refl 0) (by decide),
    no_scale_validation_and_generic_errors.2.1 testCard 0 0 0⟩

end Suimon
